import Mathlib

/-!
Shallow embedding of the navigation core of `git-who` (`src/terminal.rs`):
the `App` state, the `handle_input` key dispatcher and the `scroll` routine.
The history provider (`crate::git` together with the `git2` lookups) is an
external collaborator and is modelled as an opaque record of possibly-failing
functions.  Machine integers (`u16`, `usize`) are modelled as `Nat` with
explicit saturation/wrapping where the Rust code can overflow.
-/

namespace GitWho

/-- Opaque commit identifier (`git2::Oid`). -/
abbrev Oid := Nat

/-- One row of the blame listing (`git::BlameLine`): the attributed commit plus
an opaque pre-formatted text fragment (`spans`), read-only to the core. -/
structure BlameLine where
  commit : Oid
  spans : Nat
deriving Repr, DecidableEq

/-- Overlay text (`tui::text::Text`): the core only observes its `height()`;
`content` is an opaque identifier distinguishing different texts. -/
structure Text where
  height : Nat
  content : Nat
deriving Repr, DecidableEq

/-- The history provider: `git2::Repository::find_commit(..).parent_id(0)`
(composed as one fallible lookup, `parent_of`), `git::blame` and
`git::log_follow`.  The repository handle and file path are fixed for the
whole run, so they are baked into the record.  `log_follow` is infallible,
matching its Rust signature which returns `Text` directly. -/
structure Git where
  parent_of : Oid → Except String Oid
  blame : Oid → Except String (List BlameLine)
  log_follow : Nat → Oid → Text

/-- The mutable state (`terminal::App`), omitting the borrowed `repo` and
`filepath` handles which never change.  `blame_state` is the `ListState`
selection; `commit_stack` stores the stack bottom-first, top = last element;
`line_history_scroll` is a `u16`. -/
structure App where
  blame : List BlameLine
  blame_state : Option Nat
  commit_stack : List Oid
  line_history : Option Text
  line_history_scroll : Nat
deriving Repr, DecidableEq

/-- `App::new`: empty blame, no selection, a one-element commit stack,
no overlay. -/
def App.new (commit : Oid) : App :=
  { blame := []
    blame_state := none
    commit_stack := [commit]
    line_history := none
    line_history_scroll := 0 }

/-- Decoded key events, one constructor per arm of the `match` in
`handle_input`: `j`/Down, `k`/Up, Ctrl-d/PageDown, Ctrl-u/PageUp, Enter,
`b`, `B`, `q`/Esc, and everything else. -/
inductive Key where
  | down
  | up
  | pageDown
  | pageUp
  | enter
  | charb
  | charB
  | quit
  | other
deriving Repr, DecidableEq

/-- Result of one `handle_input` call.  `ok c a` is Rust's `Ok(c)` with the
(possibly mutated) state `a`; `err msg a` is `Err(msg)` with the state as the
early `?` return left it; `panic` marks an index/`unwrap` panic, which aborts
the process and leaves no state. -/
inductive Step where
  | ok (cont : Bool) (app : App)
  | err (msg : String) (app : App)
  | panic
deriving Repr, DecidableEq

/-- `u16::MAX`. -/
def U16MAX : Nat := 65535

/-- `usize::MAX` (64-bit target). -/
def USIZEMAX : Nat := 2 ^ 64 - 1

/-- `u16::saturating_add_signed`: saturates at `0` below and `u16::MAX`
above (`Nat` subtraction is already truncated at `0`). -/
def satAddSignedU16 (x : Nat) (s : Int) : Nat :=
  if 0 ≤ s then min (x + s.toNat) U16MAX else x - (-s).toNat

/-- `usize::saturating_add_signed` on a 64-bit target. -/
def satAddSignedUsize (x : Nat) (s : Int) : Nat :=
  if 0 ≤ s then min (x + s.toNat) USIZEMAX else x - (-s).toNat

/-- The `usize` expression `n - 1` from `app.blame.len() - 1`: two's-complement
wrap on underflow (release build; a debug build would abort here, which for the
purposes of this development is observationally a panic as well, reached in the
same states). -/
def usizeSubOne (n : Nat) : Nat :=
  (n + USIZEMAX) % (USIZEMAX + 1)

/-- The `scroll` routine of `terminal.rs`.  `termHeight` is
`term_size.height`.  Returns `none` when the Rust code panics
(`u16::try_from(line_history.height()).unwrap()` with a height that does not
fit in `u16`).  With an overlay: `u16` saturating add then
`clamp(0, height.saturating_sub(termHeight))`.  Without: move the selection,
clamped to `blame.len() - 1` (which wraps when the list is empty), or select
index 0 when there is no selection yet. -/
def scroll (app : App) (termHeight : Nat) (amount : Int) : Option App :=
  match app.line_history with
  | some lh =>
      if lh.height ≤ U16MAX then
        let mx := lh.height - termHeight
        some { app with
          line_history_scroll := min (satAddSignedU16 app.line_history_scroll amount) mx }
      else
        none
  | none =>
      match app.blame_state with
      | some index =>
          let newIndex := satAddSignedUsize index amount
          some { app with
            blame_state := some (min newIndex (usizeSubOne app.blame.length)) }
      | none =>
          some { app with blame_state := some 0 }

/-- Lift the result of `scroll` (which never fails, only panics) into a
`Step`: the scroll arms of `handle_input` always fall through to `Ok(true)`. -/
def liftScroll : Option App → Step
  | some a => Step.ok true a
  | none => Step.panic

/-- `handle_input` from `terminal.rs`: one `Step` per decoded key.  The
half-page step is `(term_size.height / 2)` (the `i16` conversion cannot fail
since `u16 / 2 ≤ 32767`).  `Enter` installs the infallible `log_follow`
result as the overlay; `b` descends to the parent of the selected line's
commit; `B` pops the commit stack (when it has more than one entry) and then
recomputes the blame; `q`/Esc closes the overlay if present, otherwise
terminates (`Ok(false)`). -/
def handle_input (key : Key) (app : App) (git : Git) (termHeight : Nat) : Step :=
  match key with
  | .down => liftScroll (scroll app termHeight 1)
  | .up => liftScroll (scroll app termHeight (-1))
  | .pageDown => liftScroll (scroll app termHeight ((termHeight / 2 : Nat) : Int))
  | .pageUp => liftScroll (scroll app termHeight (-((termHeight / 2 : Nat) : Int)))
  | .enter =>
      match app.blame_state with
      | some index =>
          match app.commit_stack.getLast? with
          | some commit =>
              Step.ok true { app with line_history := some (git.log_follow index commit) }
          | none => Step.panic
      | none => Step.ok true app
  | .charb =>
      match app.blame_state with
      | some index =>
          match app.blame.get? index with
          | some line =>
              match git.parent_of line.commit with
              | .error e => Step.err e app
              | .ok parent =>
                  match git.blame parent with
                  | .error e => Step.err e app
                  | .ok newBlame =>
                      Step.ok true { app with
                        blame := newBlame
                        blame_state := some (min index newBlame.length)
                        commit_stack := app.commit_stack ++ [parent] }
          | none => Step.panic
      | none => Step.ok true app
  | .charB =>
      if app.commit_stack.length > 1 then
        let stack := app.commit_stack.dropLast
        match stack.getLast? with
        | some commit =>
            match git.blame commit with
            | .error e => Step.err e { app with commit_stack := stack }
            | .ok newBlame =>
                Step.ok true { app with
                  blame := newBlame
                  commit_stack := stack
                  blame_state :=
                    match app.blame_state with
                    | some index => some (min index newBlame.length)
                    | none => none }
        | none => Step.panic
      else
        Step.ok true app
  | .quit =>
      match app.line_history with
      | some _ =>
          Step.ok true { app with line_history := none, line_history_scroll := 0 }
      | none => Step.ok false app
  | .other => Step.ok true app

/-- Modelled from the spec: the command-line entry point (the repository's
real `main`, not under `src/`) resolves a starting commit and loads the
initial attribution for it via the history provider before the event loop
starts, so the session begins with `attribution` reflecting
`commit_stack.top()`. -/
def App.initLoaded (commit : Oid) (bl : List BlameLine) : App :=
  { App.new commit with blame := bl }

/-- Reachable states of one session: the freshly constructed state (as
`App::new` builds it), the state after the initial blame load (modelled from
the spec, see `App.initLoaded`), and every state produced by a handled key
event — including the state left behind by a recoverable error, since
`run_app` keeps running with it.  The terminal height is re-read on every
loop iteration, so it varies per step. -/
inductive Reachable (git : Git) : App → Prop where
  | init (c : Oid) : Reachable git (App.new c)
  | initLoaded (c : Oid) (bl : List BlameLine) :
      git.blame c = .ok bl → Reachable git (App.initLoaded c bl)
  | stepOk (k : Key) (th : Nat) {a a' : App} {c : Bool} :
      Reachable git a → handle_input k a git th = .ok c a' → Reachable git a'
  | stepErr (k : Key) (th : Nat) {a a' : App} {msg : String} :
      Reachable git a → handle_input k a git th = .err msg a' → Reachable git a'

/-- Map a function over the state carried by a `Step` (panic carries none). -/
def Step.mapApp (f : App → App) : Step → Step
  | .ok c a => .ok c (f a)
  | .err m a => .err m (f a)
  | .panic => .panic

/-- The state carried by a `Step` (if any) has a non-empty commit stack. -/
def Step.stackPos : Step → Prop
  | .ok _ a => 1 ≤ a.commit_stack.length
  | .err _ a => 1 ≤ a.commit_stack.length
  | .panic => True

/-- A provider whose behavior is irrelevant to the claim at hand: every commit
has a parent, every blame is empty, log-follow returns a small text. -/
def trivGit : Git :=
  { parent_of := fun c => .ok (c + 1)
    blame := fun _ => .ok []
    log_follow := fun i c => ⟨i, c⟩ }

/-- Provider for the C1 scenario: the starting commit 10 blames to three
lines whose last is commit 12; every other commit blames to two lines. -/
def C1git : Git :=
  { parent_of := fun _ => .ok 99
    blame := fun c =>
      if c = 10 then .ok [⟨10, 0⟩, ⟨11, 0⟩, ⟨12, 0⟩] else .ok [⟨99, 0⟩, ⟨99, 1⟩]
    log_follow := fun i c => ⟨i, c⟩ }

/-- C1 scenario: session started at commit 10, three attributed lines. -/
def C1s0 : App := App.initLoaded 10 [⟨10, 0⟩, ⟨11, 0⟩, ⟨12, 0⟩]

/-- C1 scenario after one move-down. -/
def C1s1 : App := { C1s0 with blame_state := some 0 }

/-- C1 scenario after two move-downs. -/
def C1s2 : App := { C1s0 with blame_state := some 1 }

/-- C1 scenario after three move-downs. -/
def C1s3 : App := { C1s0 with blame_state := some 2 }

/-- C1 scenario after descending from line 2: the parent's blame has only two
lines but the selection was re-clamped to `min 2 2 = 2`, which is out of
range. -/
def C1s4 : App :=
  { blame := [⟨99, 0⟩, ⟨99, 1⟩]
    blame_state := some 2
    commit_stack := [10, 99]
    line_history := none
    line_history_scroll := 0 }

/-- Provider for the C2 scenario: blame always fails. -/
def C2git : Git :=
  { parent_of := fun c => .ok (c + 1)
    blame := fun _ => .error "object not found"
    log_follow := fun i c => ⟨i, c⟩ }

/-- C2 scenario: a session that has already descended once (stack `[1, 2]`). -/
def C2app : App :=
  { blame := [⟨5, 0⟩]
    blame_state := some 0
    commit_stack := [1, 2]
    line_history := none
    line_history_scroll := 0 }

/-- Provider for the C3 scenario: the parent of every commit is 7 and every
blame has exactly three lines. -/
def C3git : Git :=
  { parent_of := fun _ => .ok 7
    blame := fun _ => .ok [⟨7, 0⟩, ⟨7, 1⟩, ⟨7, 2⟩]
    log_follow := fun i c => ⟨i, c⟩ }

/-- C3 scenario: four attributed lines with the last one selected. -/
def C3app : App :=
  { blame := [⟨1, 0⟩, ⟨2, 0⟩, ⟨3, 0⟩, ⟨4, 0⟩]
    blame_state := some 3
    commit_stack := [1]
    line_history := none
    line_history_scroll := 0 }

/-- C3 scenario after the descend: selection `min 3 3 = 3` on a three-line
blame, not the in-range `min 3 2 = 2` the spec prescribes. -/
def C3app' : App :=
  { blame := [⟨7, 0⟩, ⟨7, 1⟩, ⟨7, 2⟩]
    blame_state := some 3
    commit_stack := [1, 7]
    line_history := none
    line_history_scroll := 0 }

/-- Provider for the C4 scenario: all lookups succeed. -/
def C4git : Git :=
  { parent_of := fun _ => .ok 50
    blame := fun _ => .ok [⟨50, 0⟩]
    log_follow := fun i c => ⟨i + c, 1⟩ }

/-- C4 scenario: the history overlay is open while a line is selected. -/
def C4app : App :=
  { blame := [⟨7, 0⟩]
    blame_state := some 0
    commit_stack := [7]
    line_history := some ⟨40, 3⟩
    line_history_scroll := 5 }

/-- C4 scenario after pressing `b` with the overlay open: the descend fired
anyway. -/
def C4app' : App :=
  { blame := [⟨50, 0⟩]
    blame_state := some 0
    commit_stack := [7, 50]
    line_history := some ⟨40, 3⟩
    line_history_scroll := 5 }

/-- C5 scenario: the inspected file is empty at the starting commit, so the
initial attribution is the empty list. -/
def C5app : App := App.initLoaded 7 []

/-- C5 scenario after one move-down: index 0 got selected although the list
is empty. -/
def C5app' : App := { C5app with blame_state := some 0 }

/-- C8 scenario: overlay of height 100 with the viewport at height 20. -/
def C8app : App :=
  { blame := []
    blame_state := none
    commit_stack := [0]
    line_history := some ⟨100, 0⟩
    line_history_scroll := 0 }

/-- Provider for the C9 scenario: the parent of `c` is `c + 1` and every
commit blames to the single line it last touched. -/
def C9git : Git :=
  { parent_of := fun c => .ok (c + 1)
    blame := fun c => .ok [⟨c, 0⟩]
    log_follow := fun i c => ⟨i, c⟩ }

/-- C9 scenario: start of the round trip. -/
def C9a : App :=
  { blame := [⟨5, 0⟩]
    blame_state := some 0
    commit_stack := [3]
    line_history := none
    line_history_scroll := 0 }

/-- C9 scenario after the descend to commit 6. -/
def C9a₁ : App :=
  { blame := [⟨6, 0⟩]
    blame_state := some 0
    commit_stack := [3, 6]
    line_history := none
    line_history_scroll := 0 }

/-- C9 scenario after the ascend back to commit 3. -/
def C9a₂ : App :=
  { blame := [⟨3, 0⟩]
    blame_state := some 0
    commit_stack := [3]
    line_history := none
    line_history_scroll := 0 }

/-- Provider for the C10 scenario. -/
def C10git : Git :=
  { parent_of := fun c => .ok (c + 1)
    blame := fun c => .ok [⟨c, 0⟩]
    log_follow := fun i c => ⟨i + 1, c⟩ }

/-- C10 scenario: one attributed line, selected, session at commit 4. -/
def C10app : App :=
  { blame := [⟨4, 0⟩]
    blame_state := some 0
    commit_stack := [4]
    line_history := none
    line_history_scroll := 0 }

/-- The scroll routine never touches the commit stack. -/
theorem scroll_commit_stack {a : App} {th : Nat} {s : Int} {a' : App}
    (h : scroll a th s = some a') : a'.commit_stack = a.commit_stack := by
  obtain ⟨bl, bs, cs, lh, sc⟩ := a
  cases lh with
  | some t =>
    simp only [scroll] at h
    by_cases hh : t.height ≤ U16MAX
    · rw [if_pos hh] at h
      obtain rfl := Option.some.inj h
      rfl
    · rw [if_neg hh] at h
      exact absurd h (by simp)
  | none =>
    cases bs with
    | some i =>
      simp only [scroll] at h
      obtain rfl := Option.some.inj h
      rfl
    | none =>
      simp only [scroll] at h
      obtain rfl := Option.some.inj h
      rfl

/-- Scroll arms preserve the commit-stack invariant. -/
theorem liftScroll_stackPos {a : App} {th : Nat} {s : Int}
    (h1 : 1 ≤ a.commit_stack.length) : (liftScroll (scroll a th s)).stackPos := by
  cases hs : scroll a th s with
  | none => trivial
  | some a' =>
    show 1 ≤ a'.commit_stack.length
    rw [scroll_commit_stack hs]
    exact h1

/-- Single-step preservation of the commit-stack invariant: whatever state a
handled key leaves behind (normal, or abandoned by an early error return)
still has a non-empty commit stack. -/
theorem handle_input_stackPos (k : Key) (a : App) (g : Git) (th : Nat)
    (h1 : 1 ≤ a.commit_stack.length) : (handle_input k a g th).stackPos := by
  cases k <;> simp only [handle_input] <;>
    try exact liftScroll_stackPos h1
  all_goals repeat' split
  all_goals simp_all [Step.stackPos, List.length_append, List.length_dropLast]
  all_goals omega

/-- The commit stack of every reachable state is non-empty. -/
theorem reachable_commit_stack_length {g : Git} {a : App} (h : Reachable g a) :
    1 ≤ a.commit_stack.length := by
  induction h with
  | init c => simp [App.new]
  | initLoaded c bl hb => simp [App.initLoaded, App.new]
  | stepOk k th hr he ih =>
    have hp := handle_input_stackPos k _ g th ih
    rw [he] at hp
    exact hp
  | stepErr k th hr he ih =>
    have hp := handle_input_stackPos k _ g th ih
    rw [he] at hp
    exact hp

/-- The `b` arm of `handle_input` never reads the overlay: its result is the
same whatever `line_history` holds, with the overlay carried through
untouched. -/
theorem handle_charb_ignores_overlay (bl : List BlameLine) (bs : Option Nat)
    (cs : List Oid) (sc : Nat) (o o' : Option Text) (g : Git) (th : Nat) :
    handle_input .charb ⟨bl, bs, cs, o, sc⟩ g th
      = Step.mapApp (fun s => { s with line_history := o })
          (handle_input .charb ⟨bl, bs, cs, o', sc⟩ g th) := by
  simp only [handle_input]
  repeat' split
  all_goals simp_all [Step.mapApp]

/-- The `B` arm of `handle_input` never reads the overlay either. -/
theorem handle_charB_ignores_overlay (bl : List BlameLine) (bs : Option Nat)
    (cs : List Oid) (sc : Nat) (o o' : Option Text) (g : Git) (th : Nat) :
    handle_input .charB ⟨bl, bs, cs, o, sc⟩ g th
      = Step.mapApp (fun s => { s with line_history := o })
          (handle_input .charB ⟨bl, bs, cs, o', sc⟩ g th) := by
  simp only [handle_input]
  repeat' split
  all_goals simp_all [Step.mapApp]

/-- Claim C1: the spec's selection invariant (`selection` is `None` or a valid
index into `attribution`) is broken by the code: a reachable state exists —
three attributed lines, last line selected, descend to a parent whose blame
has two lines — where the re-clamp `index.min(blame.len())` leaves the
selection at index 2 with only 2 lines, which is out of range.  The state is
reached by a concrete event trace from the initial state. -/
theorem C1_selection_invariant_broken :
    Reachable C1git C1s4 ∧ C1s4.blame_state = some 2 ∧ C1s4.blame.length = 2 ∧
    ¬ (2 < C1s4.blame.length) := by
  refine ⟨?_, by decide, by decide, by decide⟩
  have h0 : Reachable C1git C1s0 :=
    Reachable.initLoaded 10 [⟨10, 0⟩, ⟨11, 0⟩, ⟨12, 0⟩] rfl
  have e1 : handle_input .down C1s0 C1git 30 = Step.ok true C1s1 := by decide
  have e2 : handle_input .down C1s1 C1git 30 = Step.ok true C1s2 := by decide
  have e3 : handle_input .down C1s2 C1git 30 = Step.ok true C1s3 := by decide
  have e4 : handle_input .charb C1s3 C1git 30 = Step.ok true C1s4 := by decide
  exact Reachable.stepOk .charb 30
    (Reachable.stepOk .down 30 (Reachable.stepOk .down 30 (Reachable.stepOk .down 30 h0 e1) e2) e3) e4

/-- Claim C2 (counterexample): ascend (`B`) is not all-or-nothing.  With stack
`[1, 2]` and a provider whose blame recomputation fails, `B` returns the
recoverable error but the pop has already been applied: the commit stack has
changed from `[1, 2]` to `[1]`. -/
theorem C2_ascend_partial_mutation :
    handle_input .charB C2app C2git 30
      = Step.err "object not found" { C2app with commit_stack := [1] } ∧
    ¬ ({ C2app with commit_stack := [1] } : App).commit_stack = C2app.commit_stack := by
  refine ⟨by decide, by decide⟩

/-- Claim C2 (amended): descend (`b`) really is all-or-nothing — every
recoverable-error outcome leaves the state exactly as it was; ascend (`B`) on
a failed blame recomputation leaves `attribution` and `selection` untouched
but has already popped `commit_stack` by one entry. -/
theorem C2_descend_all_or_nothing_ascend_pops (a : App) (g : Git) (th : Nat)
    (msg : String) (a' : App) :
    (handle_input .charb a g th = .err msg a' → a' = a) ∧
    (handle_input .charB a g th = .err msg a' →
      a' = { a with commit_stack := a.commit_stack.dropLast }) := by
  constructor
  · intro h
    simp only [handle_input] at h
    repeat' split at h
    all_goals first
      | exact Step.noConfusion h
      | (injection h with h1 h2; exact h2.symm)
  · intro h
    simp only [handle_input] at h
    repeat' split at h
    all_goals first
      | exact Step.noConfusion h
      | (injection h with h1 h2; exact h2.symm)

/-- Claim C2 (witness for the amended theorem): at the concrete C2 scenario
the error state left by the failed ascend is precisely the input state with
its commit stack popped. -/
theorem C2_amended_witness :
    ({ C2app with commit_stack := [1] } : App)
      = { C2app with commit_stack := C2app.commit_stack.dropLast } :=
  (C2_descend_all_or_nothing_ascend_pops C2app C2git 30 "object not found"
    { C2app with commit_stack := [1] }).2 (by decide)

/-- Claim C3: a successful descend re-clamps the selection to
`min(i, len(new attribution))`, not the spec's `min(i, len - 1)`: from a
four-line list with line 3 selected, descending to a three-line parent blame
leaves the selection at `3 = min 3 3`, not at `2 = min 3 2`. -/
theorem C3_reclamp_off_by_one :
    handle_input .charb C3app C3git 30 = Step.ok true C3app' ∧
    C3app'.blame_state = some (min 3 C3app'.blame.length) ∧
    ¬ C3app'.blame_state = some (min 3 (C3app'.blame.length - 1)) := by
  refine ⟨by decide, by decide, by decide⟩

/-- Claim C4 (counterexample): with the overlay open and a line selected,
pressing `b` is not a no-op — the descend fires, growing the commit stack and
replacing the attribution while the overlay stays open. -/
theorem C4_descend_fires_under_overlay :
    (C4app.line_history).isSome = true ∧
    handle_input .charb C4app C4git 30 = Step.ok true C4app' ∧
    ¬ C4app' = C4app := by
  refine ⟨by decide, by decide, by decide⟩

/-- Claim C4 (amended): the overlay does not gate confirm/descend/ascend at
all.  With the overlay present, `b` and `B` behave exactly as in list mode
(the overlay is carried through untouched), and Enter with a selection
recomputes the log-follow text and replaces the overlay. -/
theorem C4_enter_b_B_ignore_overlay (a : App) (g : Git) (th : Nat) (t : Text)
    (h : a.line_history = some t) :
    handle_input .charb a g th
      = Step.mapApp (fun s => { s with line_history := some t })
          (handle_input .charb { a with line_history := none } g th) ∧
    handle_input .charB a g th
      = Step.mapApp (fun s => { s with line_history := some t })
          (handle_input .charB { a with line_history := none } g th) ∧
    ∀ i c, a.blame_state = some i → a.commit_stack.getLast? = some c →
      handle_input .enter a g th
        = Step.ok true { a with line_history := some (g.log_follow i c) } := by
  obtain ⟨bl, bs, cs, lh, sc⟩ := a
  replace h : lh = some t := h
  subst h
  refine ⟨handle_charb_ignores_overlay bl bs cs sc (some t) none g th,
          handle_charB_ignores_overlay bl bs cs sc (some t) none g th, ?_⟩
  intro i c hbs hcl
  replace hbs : bs = some i := hbs
  subst hbs
  replace hcl : cs.getLast? = some c := hcl
  simp only [handle_input, hcl]

/-- Claim C4 (witness for the amended theorem): Enter with the overlay open
replaces it by the freshly computed log-follow text. -/
theorem C4_amended_witness :
    handle_input .enter C4app C4git 30
      = Step.ok true { C4app with line_history := some (C4git.log_follow 0 7) } :=
  (C4_enter_b_B_ignore_overlay C4app C4git 30 ⟨40, 3⟩ rfl).2.2 0 7 rfl (by decide)

/-- Claim C5: with no overlay and an empty attribution (a file empty at the
inspected commit), a move-down is not a no-op: the code activates the
selection at index 0 — an index that does not exist in the empty list —
instead of leaving it `None` as the spec requires. -/
theorem C5_empty_scroll_selects_zero :
    C5app.blame = [] ∧ C5app.blame_state = none ∧ C5app.line_history = none ∧
    trivGit.blame 7 = .ok [] ∧
    handle_input .down C5app trivGit 30 = Step.ok true C5app' ∧
    C5app'.blame_state = some 0 ∧
    ¬ C5app' = C5app := by
  refine ⟨by decide, by decide, by decide, rfl, by decide, by decide, by decide⟩

/-- Claim C6: quit/escape is context-sensitive.  With an overlay it clears
`line_history`, resets the overlay scroll offset to 0 and continues; without
an overlay it terminates, leaving the state untouched. -/
theorem C6_quit_context_sensitive (a : App) (g : Git) (th : Nat) :
    handle_input .quit a g th =
      match a.line_history with
      | some _ => Step.ok true { a with line_history := none, line_history_scroll := 0 }
      | none => Step.ok false a := by
  obtain ⟨bl, bs, cs, lh, sc⟩ := a
  cases lh <;> rfl

/-- Claim C7: in every reachable state the commit stack is non-empty — it
starts as a singleton, descend only appends, and ascend pops only behind the
`len > 1` guard (even when the subsequent blame recomputation fails). -/
theorem C7_commit_stack_never_empty (g : Git) (a : App) (h : Reachable g a) :
    1 ≤ a.commit_stack.length :=
  reachable_commit_stack_length h

/-- Claim C7 (witness): the initial state has a one-element commit stack. -/
theorem C7_witness : 1 ≤ (App.new 0).commit_stack.length :=
  C7_commit_stack_never_empty trivGit (App.new 0) (Reachable.init 0)

/-- Claim C8: with an overlay of height `h ≤ u16::MAX` present, every scroll
by signed step `s` sets the offset to
`clamp(offset + s, 0, max(0, h - viewport_height))` — expressed below with
`Int.toNat` for the lower clamp and `Nat` subtraction for the
`max(0, h - viewport)` ceiling — and the four movement keys feed the scroll
routine the steps `1`, `-1`, `viewport/2` and `-(viewport/2)`. -/
theorem C8_overlay_scroll_clamped (a : App) (g : Git) (th : Nat) (t : Text)
    (h1 : a.line_history = some t) (h2 : t.height ≤ U16MAX) :
    (∀ s : Int, scroll a th s =
      some { a with line_history_scroll := min (((a.line_history_scroll : Int) + s).toNat) (t.height - th) }) ∧
    handle_input .down a g th = liftScroll (scroll a th 1) ∧
    handle_input .up a g th = liftScroll (scroll a th (-1)) ∧
    handle_input .pageDown a g th = liftScroll (scroll a th ((th / 2 : Nat) : Int)) ∧
    handle_input .pageUp a g th = liftScroll (scroll a th (-((th / 2 : Nat) : Int))) := by
  refine ⟨?_, rfl, rfl, rfl, rfl⟩
  intro s
  obtain ⟨bl, bs, cs, lh, sc⟩ := a
  replace h1 : lh = some t := h1
  subst h1
  simp only [scroll]
  rw [if_pos h2]
  have key : min (satAddSignedU16 sc s) (t.height - th)
      = min (((sc : Int) + s).toNat) (t.height - th) := by
    simp only [satAddSignedU16, U16MAX] at h2 ⊢
    split <;> omega
  rw [key]

/-- Claim C8 (witness): Scenario D — overlay of height 100, viewport 20,
half-page step 10: two half-page-downs take the offset from 0 to 10 to 20,
and from offset 75 the next half-page-down clamps at the maximum 80. -/
theorem C8_witness :
    scroll C8app 20 10 = some { C8app with line_history_scroll := 10 } ∧
    scroll { C8app with line_history_scroll := 10 } 20 10
      = some { C8app with line_history_scroll := 20 } ∧
    scroll { C8app with line_history_scroll := 75 } 20 10
      = some { C8app with line_history_scroll := 80 } := by
  refine ⟨?_, ?_, ?_⟩
  · have h := (C8_overlay_scroll_clamped C8app trivGit 20 ⟨100, 0⟩ rfl (by decide)).1 10
    rw [h]; decide
  · have h := (C8_overlay_scroll_clamped { C8app with line_history_scroll := 10 }
      trivGit 20 ⟨100, 0⟩ rfl (by decide)).1 10
    rw [h]; decide
  · have h := (C8_overlay_scroll_clamped { C8app with line_history_scroll := 75 }
      trivGit 20 ⟨100, 0⟩ rfl (by decide)).1 10
    rw [h]; decide

/-- Claim C9: a successful descend immediately followed by a successful
ascend restores the commit stack exactly and recomputes the attribution as
the provider's blame of the prior top commit. -/
theorem C9_descend_ascend_round_trip (a a₁ a₂ : App) (g : Git) (th₁ th₂ : Nat)
    (i : Nat) (hs : a.blame_state = some i) (hne : 1 ≤ a.commit_stack.length)
    (h1 : handle_input .charb a g th₁ = .ok true a₁)
    (h2 : handle_input .charB a₁ g th₂ = .ok true a₂) :
    a₂.commit_stack = a.commit_stack ∧
    g.blame ((a.commit_stack.getLast?).getD 0) = .ok a₂.blame := by
  simp only [handle_input, hs] at h1
  cases hgi : a.blame.get? i with
  | none => simp only [hgi] at h1; exact Step.noConfusion h1
  | some line =>
    simp only [hgi] at h1
    cases hp : g.parent_of line.commit with
    | error e => simp only [hp] at h1; exact Step.noConfusion h1
    | ok p =>
      simp only [hp] at h1
      cases hb : g.blame p with
      | error e => simp only [hb] at h1; exact Step.noConfusion h1
      | ok nb =>
        simp only [hb] at h1
        injection h1 with hc ha
        subst ha
        simp only [handle_input] at h2
        have hgt : (a.commit_stack ++ [p]).length > 1 := by
          simp only [List.length_append, List.length_cons, List.length_nil]
          omega
        rw [if_pos hgt] at h2
        rw [List.dropLast_concat] at h2
        cases hcl : a.commit_stack.getLast? with
        | none =>
          rw [List.getLast?_eq_none_iff] at hcl
          rw [hcl] at hne
          exact absurd hne (by simp)
        | some c =>
          simp only [hcl] at h2
          cases hbc : g.blame c with
          | error e => simp only [hbc] at h2; exact Step.noConfusion h2
          | ok nb' =>
            simp only [hbc] at h2
            injection h2 with hc2 ha2
            subst ha2
            exact ⟨rfl, hbc⟩

/-- Claim C9 (witness): round trip at a concrete state — stack `[3]`, descend
to parent 6, ascend back — restores the stack and the blame of commit 3. -/
theorem C9_witness :
    C9a₂.commit_stack = C9a.commit_stack ∧
    C9git.blame ((C9a.commit_stack.getLast?).getD 0) = .ok C9a₂.blame :=
  C9_descend_ascend_round_trip C9a C9a₁ C9a₂ C9git 30 30 0 rfl (by decide)
    (by decide) (by decide)

/-- Claim C10: the confirm key (Enter) never produces an error outcome.  For
every state it cannot return `Err`, and in every reachable state (where the
commit stack is non-empty) it returns `Continue`, leaving the state unchanged
when nothing is selected and installing the infallible log-follow result as
the overlay when a line is selected. -/
theorem C10_enter_infallible (a : App) (g : Git) (th : Nat) (h : Reachable g a) :
    (∀ msg a', handle_input .enter a g th ≠ Step.err msg a') ∧
    handle_input .enter a g th =
      Step.ok true
        (match a.blame_state with
          | none => a
          | some i =>
              { a with line_history := some (g.log_follow i ((a.commit_stack.getLast?).getD 0)) }) := by
  have hlen := reachable_commit_stack_length h
  have hmain : handle_input .enter a g th =
      Step.ok true
        (match a.blame_state with
          | none => a
          | some i =>
              { a with line_history := some (g.log_follow i ((a.commit_stack.getLast?).getD 0)) }) := by
    cases hbs : a.blame_state with
    | none => simp only [handle_input, hbs]
    | some i =>
      simp only [handle_input, hbs]
      cases hcl : a.commit_stack.getLast? with
      | none =>
        rw [List.getLast?_eq_none_iff] at hcl
        rw [hcl] at hlen
        exact absurd hlen (by simp)
      | some c => rfl
  refine ⟨?_, hmain⟩
  intro msg a' hne
  rw [hmain] at hne
  exact Step.noConfusion hne

/-- Claim C10 (witness): at a concrete reachable state with line 0 selected,
Enter installs the log-follow text for line 0 of commit 4 and continues. -/
theorem C10_witness :
    handle_input .enter C10app C10git 30
      = Step.ok true { C10app with line_history := some (C10git.log_follow 0 4) } := by
  have h0 : Reachable C10git (App.initLoaded 4 [⟨4, 0⟩]) :=
    Reachable.initLoaded 4 [⟨4, 0⟩] rfl
  have e1 : handle_input .down (App.initLoaded 4 [⟨4, 0⟩]) C10git 30
      = Step.ok true C10app := by decide
  have h := (C10_enter_infallible C10app C10git 30 (Reachable.stepOk .down 30 h0 e1)).2
  rw [h]
  decide

end GitWho
